import Mathlib

/-!
Shallow embedding of the Tic-Tac-Toe game-state engine from `src/main.ts`
(classes `DOMDisplay` and `TicTacToe`).

The DOM board is modelled as a list of cell owners in tile order: the tile
with `data-tile-index = i + 1` is the list entry at position `i`, and its
`dataset["owned"]` attribute (absent, `"X"` or `"O"`) is `none`,
`some Marker.X` or `some Marker.O`.  The `TicTacToe` instance fields
together with the board snapshot, the selected difficulty button and the
single scheduled `setTimeout` callback form `GameState`.  Display-only
effects (innerHTML, CSS classes, `console.log`) are dropped, except for
`printGameOutcome`, whose chosen message is recorded in the `reported`
field because the claims are about it.
-/

inductive Marker : Type
  | X
  | O
deriving DecidableEq, Repr

/-- A cell's `dataset["owned"]` attribute: absent, `"X"` or `"O"`. -/
abbrev Owner := Option Marker

/-- Owner of the cell at position `i`; out-of-range reads as unowned,
matching a query for a tile that does not exist. -/
def cellAt (board : List Owner) (i : Nat) : Owner :=
  board.getD i none

/-- The `game3Wins` table from `DOMDisplay.checkWinner`. -/
def game3Wins : List (List Nat) :=
  [[0, 1, 2], [3, 4, 5], [6, 7, 8],
   [0, 3, 6], [1, 4, 7], [2, 5, 8],
   [0, 4, 8], [2, 4, 6]]

/-- The `game4Wins` table from `DOMDisplay.checkWinner`, verbatim. -/
def game4Wins : List (List Nat) :=
  [[0, 1, 2, 3], [3, 4, 5, 6], [6, 7, 8, 9], [10, 11, 12, 13],
   [0, 4, 8, 12], [1, 5, 9, 13], [2, 6, 10, 14], [3, 7, 11, 15],
   [0, 5, 10, 15], [3, 6, 8, 9]]

/-- The `game5Wins` table from `DOMDisplay.checkWinner`, verbatim
(including the duplicated `[5, 10, 15, 20, 25]` entry). -/
def game5Wins : List (List Nat) :=
  [[0, 1, 2, 3, 4], [5, 6, 7, 8, 9], [10, 11, 12, 13, 14],
   [15, 16, 17, 18, 19], [20, 21, 22, 23, 24],
   [0, 5, 10, 15, 20], [1, 6, 11, 16, 21], [2, 7, 12, 17, 22],
   [3, 8, 13, 18, 23], [4, 9, 14, 19, 24],
   [5, 10, 15, 20, 25], [5, 10, 15, 20, 25],
   [0, 6, 12, 18, 24], [4, 8, 12, 16, 20]]

/-- Selection of the win table in `DOMDisplay.checkWinner`:
`gameWin` stays `[]` for any unsupported `gameMode`. -/
def winLines (gameMode : Nat) : List (List Nat) :=
  if gameMode = 3 then game3Wins
  else if gameMode = 4 then game4Wins
  else if gameMode = 5 then game5Wins
  else []

/-- The tile scan in `DOMDisplay.checkWinner` that pushes
`+tileIndex - 1` for every tile owned by marker `m`, offset by the
position `k` of the first cell of `l` in the whole board. -/
def ownedTilesFrom (m : Marker) : List Owner → Nat → List Nat
  | [], _ => []
  | c :: rest, k =>
    if c = some m then k :: ownedTilesFrom m rest (k + 1)
    else ownedTilesFrom m rest (k + 1)

/-- The `xTiles` array built by `DOMDisplay.checkWinner`. -/
def xTilesOf (board : List Owner) : List Nat :=
  ownedTilesFrom Marker.X board 0

/-- The `oTiles` array built by `DOMDisplay.checkWinner`. -/
def oTilesOf (board : List Owner) : List Nat :=
  ownedTilesFrom Marker.O board 0

/-- One iteration of the inner loop of `DOMDisplay.checkWinner`: the pair
carries `(xWinner, oWinner)` and the two sequential `if` statements update
it for the line index `idx`. -/
def lineStep (xT oT : List Nat) (idx : Nat) (p : Bool × Bool) : Bool × Bool :=
  let p1 : Bool × Bool := if xT.contains idx then (p.1 && true, false) else (false, p.2)
  if oT.contains idx then (false, p1.2 && true) else (p1.1, false)

/-- The inner loop of `DOMDisplay.checkWinner` over one candidate line
`arr`, starting from `xWinner = true`, `oWinner = true`. -/
def checkLine (xT oT : List Nat) (arr : List Nat) : Bool × Bool :=
  arr.foldl (fun p idx => lineStep xT oT idx p) (true, true)

/-- `DOMDisplay.checkWinner(gameMode, currentPlayer, round)`.  The board
snapshot is passed explicitly instead of being read from the DOM.  The
`currentPlayer` argument only flows into the winner message and
`console.log`; the returned boolean does not depend on it.  The `round`
argument likewise only appears in the message and is omitted. -/
def checkWinner (gameMode : Nat) (board : List Owner) (currentPlayer : String) : Bool :=
  let gameWin := winLines gameMode
  let xT := xTilesOf board
  let oT := oTilesOf board
  gameWin.any (fun arr => ((checkLine xT oT arr).1 || (checkLine xT oT arr).2))

/-- The `PlayerMarker` record `{ x, o }` of `TicTacToe.players`. -/
structure PlayerMarker where
  x : String
  o : String
deriving DecidableEq, Repr

/-- The `Score` record `{ x, o }` of `TicTacToe.score`. -/
structure Score where
  x : Nat
  o : Nat
deriving DecidableEq, Repr

/-- The three possible messages of `DOMDisplay.printGameOutcome`. -/
inductive Outcome : Type
  | tied
  | playerWon
  | computerWon
deriving DecidableEq, Repr

/-- The message choice of `DOMDisplay.printGameOutcome(score, currentPlayer)`:
`score.o === score.x` gives "Game Tied", `score.o > score.x` gives
"Game won by Player", otherwise "Game won by Computer".  The
`currentPlayer` parameter is never consulted. -/
def printGameOutcome (score : Score) : Outcome :=
  if score.o = score.x then Outcome.tied
  else if score.x < score.o then Outcome.playerWon
  else Outcome.computerWon

/-- The two kinds of `setTimeout` callbacks scheduled by `clickTile`:
the 2s full `resetGame` of the final branch, and the 2s
"clear winner flag, bump round, restart round" of the other branch. -/
inductive Deferred : Type
  | matchReset
  | roundAdvance
deriving DecidableEq, Repr

/-- The mutable fields of the `TicTacToe` instance plus the DOM state the
engine reads: the board snapshot, the selected difficulty
(`DOMDisplay.getCurrentDifficulty()`), the pending `setTimeout` callback,
and the last `printGameOutcome` message. -/
structure GameState where
  score : Score
  players : PlayerMarker
  currentPlayer : String
  round : Nat
  winner : Bool
  board : List Owner
  difficulty : Option Nat
  pending : Option Deferred
  reported : Option Outcome
deriving DecidableEq, Repr

/-- `TicTacToe.switchPlayer`. -/
def switchPlayer (s : GameState) : GameState :=
  { s with currentPlayer :=
      if s.currentPlayer = s.players.x then s.players.o else s.players.x }

/-- `TicTacToe.increaseScore`: `score[currentPlayer == "Computer" ? "x" : "o"] += 1`. -/
def increaseScore (s : GameState) : GameState :=
  if s.currentPlayer = "Computer" then { s with score := ⟨s.score.x + 1, s.score.o⟩ }
  else { s with score := ⟨s.score.x, s.score.o + 1⟩ }

/-- The marker written by `clickTile`: `currentPlayer == "Computer" ? "X" : "O"`. -/
def markerFor (currentPlayer : String) : Marker :=
  if currentPlayer = "Computer" then Marker.X else Marker.O

/-- `TicTacToe.resetGame`: clears the board and difficulty selection
(`clearGameBoard`), resets the scoreboard display (`clearMessage`), and
reinitialises players, current player, score, winner flag and round. -/
def resetGame (s : GameState) : GameState :=
  { s with
    board := []
    difficulty := none
    reported := none
    players := ⟨"Computer", "Player"⟩
    currentPlayer := "Computer"
    score := ⟨0, 0⟩
    winner := false
    round := 1 }

/-- `TicTacToe.clickTile(tile)` with the tile given by its zero-based
board position.  Mirrors the source line by line: the guard on the
`winner` flag, the unconditional ownership write, the win check against
the freshly written board, and the two win branches with their
`this.round += 1` followed by `--this.round` and their scheduled
callbacks. -/
def clickTile (s : GameState) (tile : Nat) : GameState :=
  if s.winner then s
  else
    let board1 := s.board.set tile (some (markerFor s.currentPlayer))
    let won := checkWinner (s.difficulty.getD 0) board1 s.currentPlayer
    let s1 := { s with board := board1, winner := won }
    if won = false then switchPlayer s1
    else
      let s2 := { s1 with round := s1.round + 1 }
      if s2.round > s.difficulty.getD 0 then
        let s3 := increaseScore s2
        let s4 := { s3 with round := s3.round - 1 }
        { s4 with
          reported := some (printGameOutcome s4.score)
          pending := some Deferred.matchReset }
      else
        let s3 := increaseScore s2
        let s4 := { s3 with round := s3.round - 1 }
        { s4 with
          players := ⟨"Computer", "Player"⟩
          currentPlayer := "Computer"
          pending := some Deferred.roundAdvance }

/-- The loop of `DOMDisplay.getPlayableTile`:
`currentTile` is assigned the tile at each position before the ownership
test, so the loop falls off the end holding the last tile. -/
def getPlayableTileLoop : List Owner → Nat → Option Nat → Option Nat
  | [], _, currentTile => currentTile
  | c :: rest, k, _ =>
    if c.isSome then getPlayableTileLoop rest (k + 1) (some k)
    else some k

/-- `DOMDisplay.getPlayableTile()`, returning the position of the chosen
tile (or `none` when there are no tiles at all). -/
def getPlayableTile (board : List Owner) : Option Nat :=
  getPlayableTileLoop board 0 none

/-- `DOMDisplay.playComputer(clickHandler)` with `clickHandler = clickTile`. -/
def playComputer (s : GameState) : GameState :=
  match getPlayableTile s.board with
  | none => s
  | some t => clickTile s t

/-- `DOMDisplay.startWithDifficulty`: when a difficulty is selected
(truthy, so nonzero), `selectGameMode` rebuilds a fresh board of
`N * N` unowned tiles and lets the computer move first. -/
def startWithDifficulty (s : GameState) : GameState :=
  match s.difficulty with
  | none => s
  | some d =>
    if d = 0 then s
    else playComputer { s with board := List.replicate (d * d) none }

/-- Firing the pending `setTimeout` callback scheduled by `clickTile`:
the final branch runs `resetGame`, the other branch clears the winner
flag, bumps the round and restarts via `startWithDifficulty`. -/
def fireDeferred (s : GameState) : GameState :=
  match s.pending with
  | none => s
  | some Deferred.matchReset => resetGame { s with pending := none }
  | some Deferred.roundAdvance =>
      startWithDifficulty { s with pending := none, winner := false, round := s.round + 1 }

/-! ## Basic lemmas about cells and tile scans -/

lemma cellAt_nil (i : Nat) : cellAt [] i = none := rfl

lemma cellAt_cons_zero (c : Owner) (rest : List Owner) : cellAt (c :: rest) 0 = c := rfl

lemma cellAt_cons_succ (c : Owner) (rest : List Owner) (i : Nat) :
    cellAt (c :: rest) (i + 1) = cellAt rest i := by
  simp [cellAt, List.getD]

lemma cellAt_eq_getElem (l : List Owner) (i : Nat) (h : i < l.length) :
    cellAt l i = l[i] := by
  simp [cellAt, List.getD_eq_getElem?_getD, List.getElem?_eq_getElem h]

lemma contains_iff_mem (l : List Nat) (a : Nat) : l.contains a = true ↔ a ∈ l := by
  simp

lemma mem_ownedTilesFrom (m : Marker) (l : List Owner) (k j : Nat) :
    j ∈ ownedTilesFrom m l k ↔ k ≤ j ∧ cellAt l (j - k) = some m := by
  induction l generalizing k with
  | nil => simp [ownedTilesFrom, cellAt]
  | cons c rest ih =>
    by_cases hc : c = some m
    · simp only [ownedTilesFrom, if_pos hc, List.mem_cons, ih]
      constructor
      · rintro (rfl | ⟨hk, hcell⟩)
        · exact ⟨Nat.le_refl _, by simp [hc, Nat.sub_self, cellAt_cons_zero]⟩
        · refine ⟨by omega, ?_⟩
          have h1 : j - k = (j - (k + 1)) + 1 := by omega
          rw [h1, cellAt_cons_succ]
          exact hcell
      · rintro ⟨hk, hcell⟩
        rcases Nat.eq_or_lt_of_le hk with rfl | hlt
        · exact Or.inl rfl
        · refine Or.inr ⟨hlt, ?_⟩
          have h1 : j - k = (j - (k + 1)) + 1 := by omega
          rw [h1, cellAt_cons_succ] at hcell
          exact hcell
    · simp only [ownedTilesFrom, if_neg hc, ih]
      constructor
      · rintro ⟨hk, hcell⟩
        refine ⟨by omega, ?_⟩
        have h1 : j - k = (j - (k + 1)) + 1 := by omega
        rw [h1, cellAt_cons_succ]
        exact hcell
      · rintro ⟨hk, hcell⟩
        rcases Nat.eq_or_lt_of_le hk with rfl | hlt
        · rw [Nat.sub_self, cellAt_cons_zero] at hcell
          exact absurd hcell hc
        · refine ⟨hlt, ?_⟩
          have h1 : j - k = (j - (k + 1)) + 1 := by omega
          rw [h1, cellAt_cons_succ] at hcell
          exact hcell

lemma mem_xTilesOf (board : List Owner) (j : Nat) :
    j ∈ xTilesOf board ↔ cellAt board j = some Marker.X := by
  rw [xTilesOf, mem_ownedTilesFrom]
  simp

lemma mem_oTilesOf (board : List Owner) (j : Nat) :
    j ∈ oTilesOf board ↔ cellAt board j = some Marker.O := by
  rw [oTilesOf, mem_ownedTilesFrom]
  simp

/-! ## Characterisation of the win-check loops -/

lemma lineStep_eq (xT oT : List Nat) (idx : Nat) (p : Bool × Bool) :
    lineStep xT oT idx p =
      (p.1 && (xT.contains idx && !(oT.contains idx)),
       p.2 && (oT.contains idx && !(xT.contains idx))) := by
  unfold lineStep
  cases hx : xT.contains idx <;> cases ho : oT.contains idx <;> simp [hx, ho]

lemma checkLine_foldl (xT oT : List Nat) (arr : List Nat) (p : Bool × Bool) :
    arr.foldl (fun q idx => lineStep xT oT idx q) p =
      (p.1 && arr.all (fun i => xT.contains i && !(oT.contains i)),
       p.2 && arr.all (fun i => oT.contains i && !(xT.contains i))) := by
  induction arr generalizing p with
  | nil => simp
  | cons i rest ih =>
    rw [List.foldl_cons, ih, lineStep_eq]
    simp [Bool.and_assoc]

lemma checkLine_eq (xT oT : List Nat) (arr : List Nat) :
    checkLine xT oT arr =
      (arr.all (fun i => xT.contains i && !(oT.contains i)),
       arr.all (fun i => oT.contains i && !(xT.contains i))) := by
  rw [checkLine, checkLine_foldl]
  simp

lemma lineCell_x (board : List Owner) (i : Nat) :
    ((xTilesOf board).contains i && !((oTilesOf board).contains i)) = true ↔
      cellAt board i = some Marker.X := by
  rw [Bool.and_eq_true, Bool.not_eq_true', contains_iff_mem, mem_xTilesOf]
  rw [show ((oTilesOf board).contains i = false) ↔ (i ∉ oTilesOf board) by simp]
  rw [mem_oTilesOf]
  constructor
  · exact fun h => h.1
  · intro h
    exact ⟨h, by simp [h]⟩

lemma lineCell_o (board : List Owner) (i : Nat) :
    ((oTilesOf board).contains i && !((xTilesOf board).contains i)) = true ↔
      cellAt board i = some Marker.O := by
  rw [Bool.and_eq_true, Bool.not_eq_true', contains_iff_mem, mem_oTilesOf]
  rw [show ((xTilesOf board).contains i = false) ↔ (i ∉ xTilesOf board) by simp]
  rw [mem_xTilesOf]
  constructor
  · exact fun h => h.1
  · intro h
    exact ⟨h, by simp [h]⟩

lemma checkLine_fst_iff (board : List Owner) (arr : List Nat) :
    (checkLine (xTilesOf board) (oTilesOf board) arr).1 = true ↔
      ∀ i ∈ arr, cellAt board i = some Marker.X := by
  rw [checkLine_eq]
  simp only [List.all_eq_true]
  constructor
  · intro h i hi
    exact (lineCell_x board i).mp (h i hi)
  · intro h i hi
    exact (lineCell_x board i).mpr (h i hi)

lemma checkLine_snd_iff (board : List Owner) (arr : List Nat) :
    (checkLine (xTilesOf board) (oTilesOf board) arr).2 = true ↔
      ∀ i ∈ arr, cellAt board i = some Marker.O := by
  rw [checkLine_eq]
  simp only [List.all_eq_true]
  constructor
  · intro h i hi
    exact (lineCell_o board i).mp (h i hi)
  · intro h i hi
    exact (lineCell_o board i).mpr (h i hi)

lemma checkWinner_iff (gameMode : Nat) (board : List Owner) (cp : String) :
    checkWinner gameMode board cp = true ↔
      ∃ arr ∈ winLines gameMode,
        (∀ i ∈ arr, cellAt board i = some Marker.X) ∨
        (∀ i ∈ arr, cellAt board i = some Marker.O) := by
  simp only [checkWinner, List.any_eq_true, Bool.or_eq_true]
  constructor
  · rintro ⟨arr, harr, h | h⟩
    · exact ⟨arr, harr, Or.inl ((checkLine_fst_iff board arr).mp h)⟩
    · exact ⟨arr, harr, Or.inr ((checkLine_snd_iff board arr).mp h)⟩
  · rintro ⟨arr, harr, h | h⟩
    · exact ⟨arr, harr, Or.inl ((checkLine_fst_iff board arr).mpr h)⟩
    · exact ⟨arr, harr, Or.inr ((checkLine_snd_iff board arr).mpr h)⟩

lemma winLines_unsupported (gameMode : Nat)
    (h3 : gameMode ≠ 3) (h4 : gameMode ≠ 4) (h5 : gameMode ≠ 5) :
    winLines gameMode = [] := by
  simp [winLines, h3, h4, h5]

lemma checkWinner_of_unsupported (gameMode : Nat)
    (h3 : gameMode ≠ 3) (h4 : gameMode ≠ 4) (h5 : gameMode ≠ 5)
    (board : List Owner) (cp : String) :
    checkWinner gameMode board cp = false := by
  simp [checkWinner, winLines_unsupported gameMode h3 h4 h5]

/-! ## Branch descriptions of `clickTile` -/

/-- The `winner` value computed inside `clickTile`: the win check against
the board with the clicked tile freshly marked. -/
def moveWins (s : GameState) (t : Nat) : Bool :=
  checkWinner (s.difficulty.getD 0) (s.board.set t (some (markerFor s.currentPlayer)))
    s.currentPlayer

lemma clickTile_of_winner (s : GameState) (t : Nat) (h : s.winner = true) :
    clickTile s t = s := by
  simp [clickTile, h]

lemma clickTile_not_won (s : GameState) (t : Nat)
    (hw : s.winner = false) (hwin : moveWins s t = false) :
    clickTile s t = switchPlayer { s with
      board := s.board.set t (some (markerFor s.currentPlayer)),
      winner := false } := by
  unfold moveWins at hwin
  simp [clickTile, hw, hwin]

lemma clickTile_won_final (s : GameState) (t : Nat)
    (hw : s.winner = false) (hwin : moveWins s t = true)
    (hr : s.difficulty.getD 0 < s.round + 1) :
    clickTile s t = { s with
      board := s.board.set t (some (markerFor s.currentPlayer)),
      winner := true,
      score := (increaseScore s).score,
      reported := some (printGameOutcome (increaseScore s).score),
      pending := some Deferred.matchReset } := by
  unfold moveWins at hwin
  by_cases hc : s.currentPlayer = "Computer"
  · rw [hc] at hwin
    simp [clickTile, hw, hwin, hr, increaseScore, hc]
  · simp [clickTile, hw, hwin, hr, increaseScore, hc]

lemma clickTile_won_nonfinal (s : GameState) (t : Nat)
    (hw : s.winner = false) (hwin : moveWins s t = true)
    (hr : s.round + 1 ≤ s.difficulty.getD 0) :
    clickTile s t = { s with
      board := s.board.set t (some (markerFor s.currentPlayer)),
      winner := true,
      score := (increaseScore s).score,
      players := ⟨"Computer", "Player"⟩,
      currentPlayer := "Computer",
      pending := some Deferred.roundAdvance } := by
  unfold moveWins at hwin
  have hr' : ¬ (s.difficulty.getD 0 < s.round + 1) := by omega
  by_cases hc : s.currentPlayer = "Computer"
  · rw [hc] at hwin
    simp [clickTile, hw, hwin, hr', increaseScore, hc]
  · simp [clickTile, hw, hwin, hr', increaseScore, hc]

lemma clickTile_winner_eq (s : GameState) (t : Nat) (hw : s.winner = false) :
    (clickTile s t).winner = moveWins s t := by
  by_cases hwin : moveWins s t = true
  · by_cases hr : s.difficulty.getD 0 < s.round + 1
    · rw [clickTile_won_final s t hw hwin hr, hwin]
    · rw [clickTile_won_nonfinal s t hw hwin (by omega), hwin]
  · have hwin' : moveWins s t = false := by simpa using hwin
    rw [clickTile_not_won s t hw hwin', hwin']
    rfl

lemma clickTile_round (s : GameState) (t : Nat) :
    (clickTile s t).round = s.round := by
  by_cases hw : s.winner = true
  · rw [clickTile_of_winner s t hw]
  · have hw' : s.winner = false := by simpa using hw
    by_cases hwin : moveWins s t = true
    · by_cases hr : s.difficulty.getD 0 < s.round + 1
      · rw [clickTile_won_final s t hw' hwin hr]
      · rw [clickTile_won_nonfinal s t hw' hwin (by omega)]
    · rw [clickTile_not_won s t hw' (by simpa using hwin)]
      rfl

lemma clickTile_board_of_not_winner (s : GameState) (t : Nat) (hw : s.winner = false) :
    (clickTile s t).board = s.board.set t (some (markerFor s.currentPlayer)) := by
  by_cases hwin : moveWins s t = true
  · by_cases hr : s.difficulty.getD 0 < s.round + 1
    · rw [clickTile_won_final s t hw hwin hr]
    · rw [clickTile_won_nonfinal s t hw hwin (by omega)]
  · rw [clickTile_not_won s t hw (by simpa using hwin)]
    rfl

lemma clickTile_pending_of_not_won (s : GameState) (t : Nat)
    (hw : s.winner = false) (hwin : moveWins s t = false) :
    (clickTile s t).pending = s.pending := by
  rw [clickTile_not_won s t hw hwin]
  rfl

/-! ## The deferred callbacks -/

lemma getPlayableTile_replicate (n : Nat) (h : n ≠ 0) :
    getPlayableTile (List.replicate n (none : Owner)) = some 0 := by
  cases n with
  | zero => exact absurd rfl h
  | succ k => rfl

lemma checkWinner_single_mark (d : Nat) (m : Marker) (cp : String) :
    checkWinner d ((List.replicate (d * d) (none : Owner)).set 0 (some m)) cp = false := by
  have hcp : checkWinner d ((List.replicate (d * d) (none : Owner)).set 0 (some m)) cp =
      checkWinner d ((List.replicate (d * d) (none : Owner)).set 0 (some m)) "" := rfl
  rw [hcp]
  by_cases h3 : d = 3
  · subst h3; cases m <;> decide
  · by_cases h4 : d = 4
    · subst h4; cases m <;> decide
    · by_cases h5 : d = 5
      · subst h5; cases m <;> decide
      · exact checkWinner_of_unsupported d h3 h4 h5 _ _

lemma playComputer_round (s : GameState) : (playComputer s).round = s.round := by
  unfold playComputer
  rcases h : getPlayableTile s.board with _ | t
  · rfl
  · exact clickTile_round s t

lemma startWithDifficulty_round (s : GameState) :
    (startWithDifficulty s).round = s.round := by
  unfold startWithDifficulty
  rcases h : s.difficulty with _ | d
  · rfl
  · by_cases hd : d = 0
    · simp [hd]
    · simp [hd, playComputer_round]

lemma fireDeferred_roundAdvance_round (s : GameState)
    (h : s.pending = some Deferred.roundAdvance) :
    (fireDeferred s).round = s.round + 1 := by
  simp only [fireDeferred, h]
  rw [startWithDifficulty_round]

lemma playComputer_of_tile (s : GameState) (t : Nat)
    (h : getPlayableTile s.board = some t) :
    playComputer s = clickTile s t := by
  unfold playComputer
  rw [h]

lemma fireDeferred_roundAdvance_winner (s : GameState)
    (h : s.pending = some Deferred.roundAdvance) :
    (fireDeferred s).winner = false := by
  simp only [fireDeferred, h]
  unfold startWithDifficulty
  rcases hd : s.difficulty with _ | d
  · simp [hd]
  · simp only [hd]
    by_cases hd0 : d = 0
    · simp [hd0]
    · rw [if_neg hd0]
      rw [playComputer_of_tile _ 0 (getPlayableTile_replicate (d * d) (Nat.mul_ne_zero hd0 hd0))]
      rw [clickTile_winner_eq _ 0 rfl]
      exact checkWinner_single_mark d _ _

lemma fireDeferred_matchReset_winner (s : GameState)
    (h : s.pending = some Deferred.matchReset) :
    (fireDeferred s).winner = false := by
  simp [fireDeferred, h, resetGame]

/-! ## The tile-picking loop -/

lemma getPlayableTileLoop_first : ∀ (l : List Owner) (j k : Nat) (cur : Option Nat),
    j < l.length → (∀ i, i < j → (cellAt l i).isSome = true) → cellAt l j = none →
    getPlayableTileLoop l k cur = some (k + j) := by
  intro l
  induction l with
  | nil =>
    intro j k cur hj _ _
    simp at hj
  | cons c rest ih =>
    intro j k cur hj hbefore hat
    cases j with
    | zero =>
      rw [cellAt_cons_zero] at hat
      unfold getPlayableTileLoop
      simp [hat]
    | succ j' =>
      have hc : c.isSome = true := by
        have h0 := hbefore 0 (Nat.succ_pos j')
        rwa [cellAt_cons_zero] at h0
      unfold getPlayableTileLoop
      rw [if_pos hc]
      rw [ih j' (k + 1) (some k) (by simpa using hj)
        (fun i hi => by
          have := hbefore (i + 1) (by omega)
          rwa [cellAt_cons_succ] at this)
        (by rwa [cellAt_cons_succ] at hat)]
      simp only [Option.some.injEq]
      omega

lemma getPlayableTileLoop_allOwned : ∀ (l : List Owner) (k : Nat) (cur : Option Nat),
    l ≠ [] → (∀ c ∈ l, c.isSome = true) →
    getPlayableTileLoop l k cur = some (k + (l.length - 1)) := by
  intro l
  induction l with
  | nil =>
    intro k cur h _
    exact absurd rfl h
  | cons c rest ih =>
    intro k cur _ h
    have hc : c.isSome = true := h c (List.mem_cons_self c rest)
    unfold getPlayableTileLoop
    rw [if_pos hc]
    cases rest with
    | nil => simp [getPlayableTileLoop]
    | cons c2 rest2 =>
      rw [ih (k + 1) (some k) (by simp) (fun x hx => h x (List.mem_cons_of_mem c hx))]
      simp only [Option.some.injEq, List.length_cons]
      omega

lemma getPlayableTile_first (board : List Owner) (j : Nat)
    (hj : j < board.length)
    (hbefore : ∀ i, i < j → (cellAt board i).isSome = true)
    (hat : cellAt board j = none) :
    getPlayableTile board = some j := by
  have h := getPlayableTileLoop_first board j 0 none hj hbefore hat
  simpa [getPlayableTile] using h

lemma allOwned_of_forall_lt {board : List Owner}
    (h : ∀ i, i < board.length → (cellAt board i).isSome = true) :
    ∀ c ∈ board, c.isSome = true := by
  intro c hc
  rcases List.mem_iff_getElem.mp hc with ⟨i, hi, rfl⟩
  have hcell := h i hi
  rwa [cellAt_eq_getElem board i hi] at hcell

lemma getPlayableTile_allOwned (board : List Owner)
    (h0 : board ≠ []) (h : ∀ i, i < board.length → (cellAt board i).isSome = true) :
    getPlayableTile board = some (board.length - 1) := by
  have hl := getPlayableTileLoop_allOwned board 0 none h0 (allOwned_of_forall_lt h)
  simpa [getPlayableTile] using hl

/-! ## Outcome characterisation -/

lemma printGameOutcome_spec (sc : Score) :
    (printGameOutcome sc = Outcome.tied ↔ sc.o = sc.x) ∧
    (sc.x < sc.o → printGameOutcome sc = Outcome.playerWon) ∧
    (sc.o < sc.x → printGameOutcome sc = Outcome.computerWon) := by
  unfold printGameOutcome
  refine ⟨⟨fun h => ?_, fun h => by simp [h]⟩, fun h => ?_, fun h => ?_⟩
  · by_contra hne
    rw [if_neg hne] at h
    split at h <;> simp at h
  · have hne : sc.o ≠ sc.x := by omega
    rw [if_neg hne, if_pos h]
  · have hne : sc.o ≠ sc.x := by omega
    have hlt : ¬ sc.x < sc.o := by omega
    rw [if_neg hne, if_neg hlt]

/-! ## Claims -/

/-- Board where Player (marker `"O"`) fully owns the top row of the 3×3
grid and Computer (marker `"X"`) owns nothing. -/
def oRowBoard : List Owner :=
  [some Marker.O, some Marker.O, some Marker.O, none, none, none, none, none, none]

/-- C1: the claim says `checkWinner` returns `true` iff the supplied
`currentPlayer` has a fully-owned win line, and `false` for the opponent
of the line's owner.  The code evaluates the supplied player at the
failing input: Player fully owns row `[0, 1, 2]`, Computer owns no tile
at all, yet `checkWinner` called with `currentPlayer = "Computer"` still
returns `true` — the boolean result never consults `currentPlayer`. -/
theorem checkWinner_ignores_currentPlayer :
    checkWinner 3 oRowBoard "Computer" = true ∧ xTilesOf oRowBoard = [] :=
  ⟨rfl, rfl⟩

/-- C2: the win-line table is not the rows, columns and diagonals of the
grid, and not all indices are in range.  For N = 4 the table contains the
wrapping tuple `[3, 4, 5, 6]` and the non-line `[3, 6, 8, 9]` while the
actual rows `[4..7]`, `[8..11]`, `[12..15]` and the anti-diagonal
`[3, 6, 9, 12]` are missing; for N = 5 the table contains
`[5, 10, 15, 20, 25]` whose index 25 lies outside `[0, N² - 1]`. -/
theorem winLine_table_deviates :
    ([3, 4, 5, 6] ∈ game4Wins ∧ [3, 6, 8, 9] ∈ game4Wins ∧
      [4, 5, 6, 7] ∉ game4Wins ∧ [8, 9, 10, 11] ∉ game4Wins ∧
      [12, 13, 14, 15] ∉ game4Wins ∧ [3, 6, 9, 12] ∉ game4Wins) ∧
    ([5, 10, 15, 20, 25] ∈ winLines 5 ∧ ∃ arr ∈ winLines 5, ∃ i ∈ arr, 5 * 5 - 1 < i) := by
  decide

/-- State with the winner flag clear in which cell 0 is already owned by
Computer (`"X"`) and it is Player's turn. -/
def c3State : GameState :=
  { score := ⟨0, 0⟩, players := ⟨"Computer", "Player"⟩, currentPlayer := "Player",
    round := 1, winner := false,
    board := [some Marker.X, none, none, none, none, none, none, none, none],
    difficulty := some 3, pending := none, reported := none }

/-- C3 counterexample: the claim says a move on an already-owned cell
leaves the board and all cell ownership unchanged.  At `c3State`, cell 0
is owned by `"X"`, the winner flag is clear, and `clickTile` on cell 0
overwrites its owner with `"O"` — the core never re-validates ownership. -/
theorem clickTile_overwrites_owned_cell :
    c3State.winner = false ∧
    cellAt c3State.board 0 = some Marker.X ∧
    cellAt (clickTile c3State 0).board 0 = some Marker.O :=
  ⟨rfl, rfl, rfl⟩

/-- C3 amended: `clickTile` rejects a move only when the winner flag is
set; with the flag clear it unconditionally writes the current player's
marker into the clicked cell, owned or not (ownership validation lives
solely in the DOM click handler, not in the core). -/
theorem clickTile_no_ownership_revalidation (s : GameState) (t : Nat)
    (hw : s.winner = false) (ht : t < s.board.length) :
    cellAt (clickTile s t).board t = some (markerFor s.currentPlayer) := by
  rw [clickTile_board_of_not_winner s t hw]
  simp [cellAt, List.getD_eq_getElem?_getD, List.getElem?_set_self, ht]

/-- Witness for the amended C3 at the concrete state `c3State`. -/
theorem clickTile_no_ownership_revalidation_witness :
    cellAt (clickTile c3State 0).board 0 = some (markerFor c3State.currentPlayer) :=
  clickTile_no_ownership_revalidation c3State 0 rfl (by decide)

/-- C4: a candidate line wins exactly when every one of its indices is
owned by a single player, so a line with mixed ownership never wins for
either side: the full `checkWinner` result is a win iff some table line
is entirely `"X"` or entirely `"O"`, and the per-line check returns
`(false, false)` whenever the line contains both an `"X"` cell and an
`"O"` cell. -/
theorem mixed_line_never_wins (gameMode : Nat) (board : List Owner) (cp : String) :
    (checkWinner gameMode board cp = true ↔
      ∃ arr ∈ winLines gameMode,
        (∀ i ∈ arr, cellAt board i = some Marker.X) ∨
        (∀ i ∈ arr, cellAt board i = some Marker.O)) ∧
    (∀ arr : List Nat,
      (∃ i ∈ arr, cellAt board i = some Marker.X) →
      (∃ j ∈ arr, cellAt board j = some Marker.O) →
      checkLine (xTilesOf board) (oTilesOf board) arr = (false, false)) := by
  refine ⟨checkWinner_iff gameMode board cp, fun arr hx ho => ?_⟩
  obtain ⟨i, hi, hxi⟩ := hx
  obtain ⟨j, hj, hoj⟩ := ho
  have h1 : (checkLine (xTilesOf board) (oTilesOf board) arr).1 = false := by
    cases hc : (checkLine (xTilesOf board) (oTilesOf board) arr).1 with
    | false => rfl
    | true =>
      have hall := (checkLine_fst_iff board arr).mp hc
      have h2 := hall j hj
      rw [hoj] at h2
      exact absurd h2 (by simp)
  have h2 : (checkLine (xTilesOf board) (oTilesOf board) arr).2 = false := by
    cases hc : (checkLine (xTilesOf board) (oTilesOf board) arr).2 with
    | false => rfl
    | true =>
      have hall := (checkLine_snd_iff board arr).mp hc
      have h3 := hall i hi
      rw [hxi] at h3
      exact absurd h3 (by simp)
  rw [Prod.ext_iff]
  exact ⟨by simpa using h1, by simpa using h2⟩

/-- Two-cell board with one `"X"` cell and one `"O"` cell. -/
def mixedBoard : List Owner := [some Marker.X, some Marker.O]

/-- Witness for C4 at the mixed line `[0, 1]` over `mixedBoard`. -/
theorem mixed_line_never_wins_witness :
    checkLine (xTilesOf mixedBoard) (oTilesOf mixedBoard) [0, 1] = (false, false) :=
  (mixed_line_never_wins 3 mixedBoard "Computer").2 [0, 1]
    ⟨0, by decide, by decide⟩ ⟨1, by decide, by decide⟩

/-- C5: for any board size other than 3, 4 or 5 the selected win-line
table is empty, so `checkWinner` returns `false` on every board and for
every player (and, being a total function, raises nothing). -/
theorem checkWinner_degrades_on_unsupported_size (gameMode : Nat)
    (h3 : gameMode ≠ 3) (h4 : gameMode ≠ 4) (h5 : gameMode ≠ 5)
    (board : List Owner) (cp : String) :
    checkWinner gameMode board cp = false ∧ winLines gameMode = [] :=
  ⟨checkWinner_of_unsupported gameMode h3 h4 h5 board cp,
   winLines_unsupported gameMode h3 h4 h5⟩

/-- Witness for C5 at board size 6 on a fully `"X"`-owned row. -/
theorem checkWinner_degrades_on_unsupported_size_witness :
    checkWinner 6 [some Marker.X, some Marker.X, some Marker.X] "Computer" = false ∧
    winLines 6 = [] :=
  checkWinner_degrades_on_unsupported_size 6 (by decide) (by decide) (by decide)
    [some Marker.X, some Marker.X, some Marker.X] "Computer"

/-- State with the winner flag clear in which Player is about to complete
the top row `[0, 1, 2]` of a 3×3 board in round 1. -/
def c6State : GameState :=
  { score := ⟨0, 0⟩, players := ⟨"Computer", "Player"⟩, currentPlayer := "Player",
    round := 1, winner := false,
    board := [some Marker.O, some Marker.O, none, none, none, none, none, none, none],
    difficulty := some 3, pending := none, reported := none }

/-- C6 counterexample: the claim says `currentPlayer` does not change on
a winning move.  At `c6State`, Player's winning move at cell 2 wins a
non-final round, and the code resets `currentPlayer` to `"Computer"` —
a change. -/
theorem winning_move_resets_currentPlayer :
    c6State.currentPlayer = "Player" ∧
    (clickTile c6State 2).winner = true ∧
    (clickTile c6State 2).currentPlayer = "Computer" :=
  ⟨rfl, rfl, rfl⟩

/-- C6 amended: a non-winning move switches `currentPlayer`
(Computer ⇄ Player); a winning move of the final round (incremented round
exceeds the difficulty) leaves `currentPlayer` unchanged; a winning move
of a non-final round resets `currentPlayer` to `"Computer"`. -/
theorem clickTile_currentPlayer_transition (s : GameState) (t : Nat)
    (hw : s.winner = false) (hp : s.players = ⟨"Computer", "Player"⟩) :
    ((clickTile s t).winner = false →
      (clickTile s t).currentPlayer =
        (if s.currentPlayer = "Computer" then "Player" else "Computer")) ∧
    ((clickTile s t).winner = true → s.difficulty.getD 0 < s.round + 1 →
      (clickTile s t).currentPlayer = s.currentPlayer) ∧
    ((clickTile s t).winner = true → s.round + 1 ≤ s.difficulty.getD 0 →
      (clickTile s t).currentPlayer = "Computer") := by
  refine ⟨fun hnw => ?_, fun hwt hr => ?_, fun hwt hr => ?_⟩
  · have hmw : moveWins s t = false := by
      rw [← clickTile_winner_eq s t hw]
      exact hnw
    rw [clickTile_not_won s t hw hmw]
    simp [switchPlayer, hp]
  · have hmw : moveWins s t = true := by
      rw [← clickTile_winner_eq s t hw]
      exact hwt
    rw [clickTile_won_final s t hw hmw hr]
  · have hmw : moveWins s t = true := by
      rw [← clickTile_winner_eq s t hw]
      exact hwt
    rw [clickTile_won_nonfinal s t hw hmw hr]

/-- Witness for the amended C6: at `c6State`, Player's winning move of a
non-final round ends with `currentPlayer = "Computer"`. -/
theorem clickTile_currentPlayer_transition_witness :
    (clickTile c6State 2).currentPlayer = "Computer" :=
  (clickTile_currentPlayer_transition c6State 2 rfl rfl).2.2 rfl (by decide)

/-- Fresh 3×3 state whose pending round-advance callback is about to fire. -/
def c7State : GameState :=
  { score := ⟨0, 0⟩, players := ⟨"Computer", "Player"⟩, currentPlayer := "Computer",
    round := 1, winner := false,
    board := [none, none, none, none, none, none, none, none, none],
    difficulty := some 3, pending := some Deferred.roundAdvance, reported := none }

/-- C7: the synchronous part of a move never changes the round counter
(`this.round += 1` is immediately undone by `--this.round`), a
non-winning move also schedules nothing, and the round increment is
realised exactly by the round-advance callback, which only a winning
move schedules — so the round strictly increases only as a consequence
of a winning move and never changes on a non-winning move. -/
theorem round_increase_only_from_win (s : GameState) (t : Nat) :
    ((clickTile s t).round = s.round) ∧
    (s.winner = false → (clickTile s t).winner = false →
      (clickTile s t).pending = s.pending) ∧
    (s.pending = some Deferred.roundAdvance → (fireDeferred s).round = s.round + 1) := by
  refine ⟨clickTile_round s t, fun hw hnw => ?_, fireDeferred_roundAdvance_round s⟩
  exact clickTile_pending_of_not_won s t hw
    (by rw [← clickTile_winner_eq s t hw]; exact hnw)

/-- Witness for C7 at `c7State`: the computer's non-winning opening move
leaves round and pending unchanged, and the round-advance callback bumps
the round by one. -/
theorem round_increase_only_from_win_witness :
    (clickTile c7State 0).round = c7State.round ∧
    (clickTile c7State 0).pending = c7State.pending ∧
    (fireDeferred c7State).round = c7State.round + 1 :=
  ⟨(round_increase_only_from_win c7State 0).1,
   (round_increase_only_from_win c7State 0).2.1 rfl rfl,
   (round_increase_only_from_win c7State 0).2.2 rfl⟩

/-- Decided-round state: winner flag set, match-reset callback pending. -/
def c8State : GameState :=
  { score := ⟨1, 1⟩, players := ⟨"Computer", "Player"⟩, currentPlayer := "Computer",
    round := 2, winner := true,
    board := [some Marker.X, none, none, none, none, none, none, none, none],
    difficulty := some 3, pending := some Deferred.matchReset, reported := none }

/-- C8: while the winner flag is set, `clickTile` returns immediately and
changes no state at all; both deferred callbacks (full match reset and
round advance) leave the winner flag clear once they fire. -/
theorem clickTile_noop_while_winner_pending (s : GameState) (t : Nat) :
    (s.winner = true → clickTile s t = s) ∧
    (s.pending = some Deferred.matchReset → (fireDeferred s).winner = false) ∧
    (s.pending = some Deferred.roundAdvance → (fireDeferred s).winner = false) :=
  ⟨clickTile_of_winner s t, fireDeferred_matchReset_winner s,
   fireDeferred_roundAdvance_winner s⟩

/-- Witness for C8 at `c8State`. -/
theorem clickTile_noop_while_winner_pending_witness :
    clickTile c8State 0 = c8State ∧ (fireDeferred c8State).winner = false :=
  ⟨(clickTile_noop_while_winner_pending c8State 0).1 rfl,
   (clickTile_noop_while_winner_pending c8State 0).2.1 rfl⟩

/-- Round-3 state of a 3×3 match in which Computer is one move away from
winning the final round with score 2–0. -/
def c9State : GameState :=
  { score := ⟨2, 0⟩, players := ⟨"Computer", "Player"⟩, currentPlayer := "Computer",
    round := 3, winner := false,
    board := [some Marker.X, some Marker.X, none,
              some Marker.O, some Marker.O, none, none, none, none],
    difficulty := some 3, pending := none, reported := none }

/-- C9: when the winning move of the final round is recorded (the
incremented round exceeds the difficulty), the reported match outcome is
computed from the scores including the just-recorded win, and that
outcome is a tie exactly when the scores are equal, otherwise the player
with the strictly higher score. -/
theorem final_outcome_matches_scores (s : GameState) (t : Nat)
    (hw : s.winner = false)
    (hwin : (clickTile s t).winner = true)
    (hfin : s.difficulty.getD 0 < s.round + 1) :
    (clickTile s t).reported = some (printGameOutcome (clickTile s t).score) ∧
    (∀ sc : Score,
      (printGameOutcome sc = Outcome.tied ↔ sc.o = sc.x) ∧
      (sc.x < sc.o → printGameOutcome sc = Outcome.playerWon) ∧
      (sc.o < sc.x → printGameOutcome sc = Outcome.computerWon)) := by
  have hmw : moveWins s t = true := by
    rw [← clickTile_winner_eq s t hw]
    exact hwin
  refine ⟨?_, printGameOutcome_spec⟩
  rw [clickTile_won_final s t hw hmw hfin]

/-- Witness for C9 at `c9State`: Computer's final-round winning move
reports the outcome of the updated 3–0 score. -/
theorem final_outcome_matches_scores_witness :
    (clickTile c9State 2).reported = some (printGameOutcome (clickTile c9State 2).score) ∧
    (clickTile c9State 2).reported = some Outcome.computerWon :=
  ⟨(final_outcome_matches_scores c9State 2 rfl rfl (by decide)).1, rfl⟩

/-- C10: `getPlayableTile` returns the first unowned tile in board order
when one exists, but on a fully-owned non-empty board it returns the last
tile — which is owned — rather than `undefined`, and `playComputer` then
invokes the move handler (`clickTile`) on that already-owned cell instead
of doing nothing. -/
theorem getPlayableTile_first_open_else_last :
    (∀ (board : List Owner) (j : Nat), j < board.length →
      (∀ i, i < j → (cellAt board i).isSome = true) → cellAt board j = none →
      getPlayableTile board = some j) ∧
    (∀ board : List Owner, board ≠ [] →
      (∀ i, i < board.length → (cellAt board i).isSome = true) →
      getPlayableTile board = some (board.length - 1) ∧
      (cellAt board (board.length - 1)).isSome = true) ∧
    (∀ s : GameState, s.board ≠ [] →
      (∀ i, i < s.board.length → (cellAt s.board i).isSome = true) →
      playComputer s = clickTile s (s.board.length - 1)) := by
  refine ⟨getPlayableTile_first, fun board h0 h => ⟨getPlayableTile_allOwned board h0 h, ?_⟩,
    fun s h0 h => ?_⟩
  · apply h
    have hpos : 0 < board.length := List.length_pos.mpr h0
    omega
  · exact playComputer_of_tile s (s.board.length - 1) (getPlayableTile_allOwned s.board h0 h)

/-- Fully-owned two-tile board state: every tile already has an owner. -/
def fullBoardState : GameState :=
  { score := ⟨0, 0⟩, players := ⟨"Computer", "Player"⟩, currentPlayer := "Computer",
    round := 1, winner := false,
    board := [some Marker.X, some Marker.O],
    difficulty := some 3, pending := none, reported := none }

/-- Witness for C10 at `fullBoardState`: on the full board the picked
tile is the last one and the computer's turn replays it through
`clickTile`. -/
theorem getPlayableTile_first_open_else_last_witness :
    getPlayableTile fullBoardState.board = some (fullBoardState.board.length - 1) ∧
    (cellAt fullBoardState.board (fullBoardState.board.length - 1)).isSome = true ∧
    playComputer fullBoardState = clickTile fullBoardState (fullBoardState.board.length - 1) := by
  refine ⟨(getPlayableTile_first_open_else_last.2.1 fullBoardState.board (by decide) ?_).1,
    (getPlayableTile_first_open_else_last.2.1 fullBoardState.board (by decide) ?_).2,
    getPlayableTile_first_open_else_last.2.2 fullBoardState (by decide) ?_⟩ <;>
  · decide
